import Mathlib

/-!
Shallow embedding of the FFXIV market analyzer's aggregation and ranking
core:

* `MarketData`    — `src/lib/db/market-data.ts`: `median`, `quartiles`, `mad`,
  and the robust daily-stats computation inside `upsertDailyStats`;
* `Profitability` — the profitability library module: `calculateMetrics` and
  its `getRankingValue`;
* `TopItems`      — the aggregation, filtering, ranking and truncation logic
  of `GET /api/top-items` (`src/app/api/top-items/route.ts`);
* `Backfill`      — the 30-day anchor backfill script: its `median`,
  `percentile`, and the per-row anchor window of the `main` loop.

JavaScript numbers are modelled as `ℚ`; `Math.round` is `jsRound`
(`Math.floor(x + 0.5)`, as in JS for the non-negative values that occur
here); `Infinity`-valued bounds become `Option ℚ` with `none` playing the
role of `Infinity`; `Array.prototype.sort` with a numeric comparator is
modelled by `List.insertionSort`, which is stable and, on `ℚ`, produces the
unique ascending reordering (elements that compare equal are equal), which
is what `sort((a, b) => a - b)` produces.
-/

namespace MarketData

/-- `Math.round` in JavaScript: for the non-negative inputs appearing here it
equals `Math.floor(x + 0.5)` (round half up). -/
def jsRound (x : ℚ) : ℤ := ⌊x + 1/2⌋

/-- One entry of `marketData.recentHistory` (a sale record); `pricePerUnit`
and `quantity` are the fields the aggregation reads. -/
structure HistoryEntry where
  pricePerUnit : ℚ
  quantity : ℕ
deriving DecidableEq, Repr

/-- A current listing; only `quantity` is read by the aggregation. -/
structure Listing where
  quantity : ℕ
deriving DecidableEq, Repr

/-- Ascending numeric sort: the model of `[...values].sort((a, b) => a - b)`. -/
def sortAsc (values : List ℚ) : List ℚ :=
  values.insertionSort (· ≤ ·)

/-- `median` from `market-data.ts`: 0 on empty input, mean of the two middle
elements of the sorted list for even length, middle element for odd length. -/
def median (values : List ℚ) : ℚ :=
  if values = [] then 0
  else
    let sorted := sortAsc values
    let mid := sorted.length / 2
    if sorted.length % 2 = 0 then (sorted.getD (mid - 1) 0 + sorted.getD mid 0) / 2
    else sorted.getD mid 0

/-- `quartiles` from `market-data.ts`: split the sorted list at
`floor(n/2)`; for odd `n` the middle element is excluded from both halves.
Returns `(q1, q3)`. -/
def quartiles (values : List ℚ) : ℚ × ℚ :=
  if values = [] then (0, 0)
  else
    let sorted := sortAsc values
    let mid := sorted.length / 2
    let lower := sorted.take mid
    let upper := if sorted.length % 2 = 0 then sorted.drop mid else sorted.drop (mid + 1)
    (median lower, median upper)

/-- `mad` from `market-data.ts`: median of absolute deviations from `med`;
0 on empty input. -/
def mad (values : List ℚ) (med : ℚ) : ℚ :=
  if values = [] then 0
  else median (values.map (fun v => |v - med|))

/-- The per-day quantities `upsertDailyStats` computes before filtering:
`prices`, `priceMedian`, `(q1, q3)`, `iqr`, `dailyMad`, `hasEnoughSales`,
the same-day `anchor` (`priceMedian` when positive, else `null`) and
`anchorUpper = anchor * 20` (`none` = `Infinity`). -/
structure DayCtx where
  priceMedian : ℚ
  q1 : ℚ
  q3 : ℚ
  iqr : ℚ
  dailyMad : ℚ
  hasEnoughSales : Bool
  anchor : Option ℚ
  anchorUpper : Option ℚ
deriving DecidableEq, Repr

/-- Assembles the `DayCtx` of `upsertDailyStats` from the day's recent
history (lines 114–123 of `market-data.ts`). -/
def dayCtx (recentHistory : List HistoryEntry) : DayCtx :=
  let prices := recentHistory.map (·.pricePerUnit)
  let priceMedian := median prices
  let q := quartiles prices
  let anchor : Option ℚ := if 0 < priceMedian then some priceMedian else none
  { priceMedian := priceMedian
    q1 := q.1
    q3 := q.2
    iqr := q.2 - q.1
    dailyMad := mad prices priceMedian
    hasEnoughSales := decide (5 ≤ recentHistory.length)
    anchor := anchor
    anchorUpper := anchor.map (· * 20) }

/-- Rejection rule 1 (anchor ceiling): `p > anchorUpper`, where a missing
anchor means `Infinity` (never exceeded). -/
def rejectAnchor (c : DayCtx) (e : HistoryEntry) : Bool :=
  c.anchorUpper.any fun u => decide (u < e.pricePerUnit)

/-- The statistical ceiling `min(q3 + 3*iqr, median + 6*mad)`, where the MAD
bound is only applied when `dailyMad > 0` (else `Infinity`). -/
def statUpper (c : DayCtx) : ℚ :=
  let iqrUpper := c.q3 + 3 * c.iqr
  let madUpper : Option ℚ :=
    if 0 < c.dailyMad then some (c.priceMedian + 6 * c.dailyMad) else none
  match madUpper with
  | none => iqrUpper
  | some m => min iqrUpper m

/-- Rejection rule 2 (statistical ceiling): only when `hasEnoughSales`,
reject `p > min(iqrUpper, madUpper)`. -/
def rejectStat (c : DayCtx) (e : HistoryEntry) : Bool :=
  c.hasEnoughSales && decide (statUpper c < e.pricePerUnit)

/-- Rejection rule 3 (single-unit guard for presumed-cheap items):
`anchor < 1000`, `quantity == 1` and `p > q3 * 20`. -/
def rejectCheapSingle (c : DayCtx) (e : HistoryEntry) : Bool :=
  (c.anchor.any fun a => decide (a < 1000)) && e.quantity == 1 &&
    decide (c.q3 * 20 < e.pricePerUnit)

/-- `filteredSales` of `upsertDailyStats` (lines 125–142): one pass over
`recentHistory`, rejecting an entry as soon as one of the three rules
fires. -/
def filteredSales (recentHistory : List HistoryEntry) : List HistoryEntry :=
  let c := dayCtx recentHistory
  recentHistory.filter fun entry =>
    if rejectAnchor c entry then false
    else if rejectStat c entry then false
    else if rejectCheapSingle c entry then false
    else true

/-- `clampedSales` of `upsertDailyStats` (lines 144–150): surviving prices
are clamped to `clampBase * 10` where `clampBase = anchor ?? priceMedian`
(no clamp when `clampBase ≤ 0`, i.e. the cap is `Infinity`). -/
def clampedSales (recentHistory : List HistoryEntry) : List HistoryEntry :=
  let c := dayCtx recentHistory
  let clampBase := c.anchor.getD c.priceMedian
  let clampCap : Option ℚ := if 0 < clampBase then some (clampBase * 10) else none
  (filteredSales recentHistory).map fun s =>
    { s with pricePerUnit :=
        match clampCap with
        | some cap => min s.pricePerUnit cap
        | none => s.pricePerUnit }

/-- The DailyStat row assembled by `upsertDailyStats` (anchor columns are
written as `null` placeholders by this code path). -/
structure DailyStatRow where
  units_sold : ℕ
  total_revenue : ℚ
  avg_price : ℤ
  min_price : Option ℚ
  max_price : Option ℚ
  active_listings : ℕ
  total_listings_quantity : ℕ
  robust_avg_price : Option ℤ
  robust_total_revenue : ℚ
  robust_units_sold : ℕ
  robust_sample_size : ℕ
  typical_price_30d : Option ℚ
  price_p90_30d : Option ℚ
  is_low_confidence : Bool
deriving DecidableEq, Repr

/-- The row computed by `upsertDailyStats` from one day's recent history and
the current listings snapshot (lines 99–185 of `market-data.ts`). -/
def dailyStats (recentHistory : List HistoryEntry) (listings : List Listing) :
    DailyStatRow :=
  let unitsSold := recentHistory.foldl (fun sum e => sum + e.quantity) 0
  let totalRevenue :=
    recentHistory.foldl (fun sum e => sum + e.pricePerUnit * (e.quantity : ℚ)) 0
  let prices := recentHistory.map (·.pricePerUnit)
  let clamped := clampedSales recentHistory
  let robustSampleSize := clamped.length
  let robustPrices := clamped.map (·.pricePerUnit)
  { units_sold := unitsSold
    total_revenue := totalRevenue
    avg_price := if 0 < unitsSold then jsRound (totalRevenue / (unitsSold : ℚ)) else 0
    min_price := prices.min?
    max_price := prices.max?
    active_listings := listings.length
    total_listings_quantity := listings.foldl (fun sum l => sum + l.quantity) 0
    robust_avg_price :=
      if 0 < robustPrices.length then some (jsRound (median robustPrices)) else none
    robust_total_revenue :=
      clamped.foldl (fun sum e => sum + e.pricePerUnit * (e.quantity : ℚ)) 0
    robust_units_sold := clamped.foldl (fun sum e => sum + e.quantity) 0
    robust_sample_size := robustSampleSize
    typical_price_30d := none
    price_p90_30d := none
    is_low_confidence := decide (robustSampleSize < 5) }

/-- The same three rejection rules applied as successive stages, each
working on the survivors of the previous (the statistical stage applies only
when `hasEnoughSales`); all statistics and the gate come from the one
`DayCtx` of the full day, exactly as the code computes them. -/
def stagedFilteredSales (recentHistory : List HistoryEntry) : List HistoryEntry :=
  let c := dayCtx recentHistory
  let s1 := recentHistory.filter fun e => !rejectAnchor c e
  let s2 :=
    if c.hasEnoughSales then s1.filter fun e => !decide (statUpper c < e.pricePerUnit)
    else s1
  s2.filter fun e => !rejectCheapSingle c e

/-- Stage 1 of the outlier filter as claim C2 reads it: the anchor ceiling
(here the same-day median serves as the anchor, as in this code path). -/
def claimStage1 (recentHistory : List HistoryEntry) : List HistoryEntry :=
  let priceMedian := median (recentHistory.map (·.pricePerUnit))
  let anchorUpper : Option ℚ :=
    if 0 < priceMedian then some (priceMedian * 20) else none
  recentHistory.filter fun e => !(anchorUpper.any fun u => decide (u < e.pricePerUnit))

/-- Stage 2 of the outlier filter as claim C2 states it: gated on at least 5
stage-1 survivors, with Q1/Q3/IQR/MAD/median computed over those survivors,
rejecting exactly the sales priced above `min(q3 + 3*iqr, median + 6*mad)`
(MAD bound only when the MAD is positive). -/
def claimStage2 (recentHistory : List HistoryEntry) : List HistoryEntry :=
  let s1 := claimStage1 recentHistory
  if 5 ≤ s1.length then
    let ps := s1.map (·.pricePerUnit)
    let med := median ps
    let q := quartiles ps
    let iqr := q.2 - q.1
    let m := mad ps med
    let madUpper : Option ℚ := if 0 < m then some (med + 6 * m) else none
    let upper := match madUpper with
      | none => q.2 + 3 * iqr
      | some mu => min (q.2 + 3 * iqr) mu
    s1.filter fun e => decide (e.pricePerUnit ≤ upper)
  else s1

end MarketData

namespace Profitability

/-- The requested timeframe: 1, 7 or 30 days. -/
inductive Timeframe
  | d1
  | d7
  | d30
deriving DecidableEq, Repr

/-- `timeframe === '1d' ? 1 : timeframe === '7d' ? 7 : 30`. -/
def timeframeDays : Timeframe → ℕ
  | .d1 => 1
  | .d7 => 7
  | .d30 => 30

/-- A stored DailyStat row, restricted to the fields `calculateMetrics`
reads. Rows arrive ordered by `stat_date` descending (most recent first). -/
structure DailyItemStats where
  units_sold : ℕ
  total_revenue : ℚ
  min_price : Option ℚ
  max_price : Option ℚ
  active_listings : ℕ
deriving DecidableEq, Repr

/-- A recipe row: the item's material cost. -/
structure Recipe where
  material_cost : ℚ
deriving DecidableEq, Repr

/-- The `ItemMetrics` value `calculateMetrics` returns. -/
structure ItemMetrics where
  unitsSold : ℕ
  salesVelocity : ℚ
  totalRevenue : ℚ
  avgPrice : ℤ
  minPrice : Option ℚ
  maxPrice : Option ℚ
  profitPerUnit : Option ℚ
  marginPercent : Option ℚ
  activeListings : ℕ
deriving DecidableEq, Repr

/-- `calculateMetrics` from the profitability module: folds the daily rows
into timeframe metrics. The recipe lookup (`getRecipe`) is passed in as an
`Option Recipe`. -/
def calculateMetrics (dailyStats : List DailyItemStats) (timeframe : Timeframe)
    (recipe : Option Recipe) : ItemMetrics :=
  let days := timeframeDays timeframe
  let unitsSold : ℕ := dailyStats.foldl (fun sum st => sum + st.units_sold) 0
  let totalRevenue : ℚ := dailyStats.foldl (fun sum st => sum + st.total_revenue) 0
  let avgPrice : ℤ :=
    if 0 < unitsSold then MarketData.jsRound (totalRevenue / (unitsSold : ℚ)) else 0
  let allMinPrices := dailyStats.filterMap (·.min_price)
  let allMaxPrices := dailyStats.filterMap (·.max_price)
  let profit : Option ℚ :=
    match recipe with
    | some r =>
        if 0 < r.material_cost ∧ 0 < avgPrice then some ((avgPrice : ℚ) - r.material_cost)
        else none
    | none => none
  { unitsSold := unitsSold
    salesVelocity := (unitsSold : ℚ) / (days : ℚ)
    totalRevenue := totalRevenue
    avgPrice := avgPrice
    minPrice := allMinPrices.min?
    maxPrice := allMaxPrices.max?
    profitPerUnit := profit
    marginPercent := profit.map fun p => p / (avgPrice : ℚ) * 100
    activeListings :=
      match dailyStats with
      | [] => 0
      | st :: _ => st.active_listings }

end Profitability

namespace TopItems

/-- The recognized ranking strategies. -/
inductive RankingMetric
  | bestToSell
  | revenue
  | volume
  | avgPrice
  | profit
  | roi
deriving DecidableEq, Repr

/-- One row produced by the stats query of `GET /api/top-items`, restricted
to the fields the aggregation loop reads; `stat_date` is the row's date
column (it is not part of the select list, and the query orders by
`total_revenue` descending). -/
structure StatRecord where
  item_id : ℕ
  stat_date : ℕ
  units_sold : ℕ
  total_revenue : ℚ
  active_listings : ℕ
deriving DecidableEq, Repr

/-- The order in which the route iterates a key's rows: the query's
`order('total_revenue', { ascending: false })`. -/
def queryOrder (rows : List StatRecord) : List StatRecord :=
  rows.insertionSort fun a b => b.total_revenue ≤ a.total_revenue

/-- The `latestActiveListings` aggregation of the route (initialised with
the first processed row's count, then overwritten by every later row whose
`active_listings > 0`), applied to one item's rows in query order. -/
def aggActiveListings (rows : List StatRecord) : ℕ :=
  match queryOrder rows with
  | [] => 0
  | first :: rest =>
      (first :: rest).foldl
        (fun acc s => if 0 < s.active_listings then s.active_listings else acc)
        first.active_listings

/-- Claim C4's reading: `active_listings` of the most recent row (by
`stat_date`) whose `active_listings > 0`. -/
def claimActiveListings (rows : List StatRecord) : Option ℕ :=
  (((rows.filter fun r => decide (0 < r.active_listings)).insertionSort
      fun a b => a.stat_date ≤ b.stat_date).getLast?).map (·.active_listings)

/-- The `active_listings` of the last row in `l` with a positive count. -/
def lastPositiveListings (l : List StatRecord) : Option ℕ :=
  ((l.filter fun s => decide (0 < s.active_listings)).getLast?).map (·.active_listings)

/-- One element of the route's `itemsWithMetrics`, restricted to the fields
the bestToSell filter and the ranking read. -/
structure RouteItem where
  itemId : ℕ
  unitsSold : ℕ
  salesVelocity : ℚ
  totalRevenue : ℚ
  avgPrice : ℤ
  profitPerUnit : Option ℚ
  marginPercent : Option ℚ
  activeListings : ℕ
deriving DecidableEq, Repr

/-- The staged bestToSell filter of the route (lines 335–367): stage 1 keeps
items with sales, revenue, velocity ≥ 0.2 and price ≥ 200; if empty, stage 2
drops the price floor and raises the velocity floor to 0.5; if empty,
stage 3 keeps any item with sales and revenue; if empty, all items. -/
def bestToSellFilter (items : List RouteItem) : List RouteItem :=
  let s1 := items.filter fun i =>
    decide (0 < i.unitsSold) && decide (0 < i.totalRevenue) &&
      decide ((1 : ℚ)/5 ≤ i.salesVelocity) && decide ((200 : ℤ) ≤ i.avgPrice)
  if s1.isEmpty then
    let s2 := items.filter fun i =>
      decide (0 < i.unitsSold) && decide (0 < i.totalRevenue) &&
        decide ((1 : ℚ)/2 ≤ i.salesVelocity)
    if s2.isEmpty then
      let s3 := items.filter fun i =>
        decide (0 < i.unitsSold) && decide (0 < i.totalRevenue)
      if s3.isEmpty then items else s3
    else s2
  else s1

/-- The reliability multiplier of the bestToSell score. -/
def reliabilityBonus (v : ℚ) : ℚ :=
  if 5 ≤ v then 9/5 else if 1 ≤ v then 3/2 else if 1/2 ≤ v then 6/5 else 1

/-- `getRankingValue` as defined inside the route's `GET` handler; a missing
profit or margin scores `?? 0`. -/
def getRankingValue (metric : RankingMetric) (item : RouteItem) : ℚ :=
  match metric with
  | .bestToSell =>
      ((item.avgPrice : ℚ) * item.salesVelocity) * reliabilityBonus item.salesVelocity
  | .revenue => item.totalRevenue
  | .volume => (item.unitsSold : ℚ)
  | .avgPrice => (item.avgPrice : ℚ)
  | .profit => item.profitPerUnit.getD 0
  | .roi => item.marginPercent.getD 0

/-- `filteredItems.sort((a, b) => getRankingValue(b) - getRankingValue(a))`:
stable descending sort by ranking value. -/
def rankSort (metric : RankingMetric) (items : List RouteItem) : List RouteItem :=
  items.insertionSort fun a b => getRankingValue metric b ≤ getRankingValue metric a

/-- `Array.prototype.slice(0, n)` for an integer `n`: a negative end index
counts from the end of the array. -/
def jsSlice {α : Type} (l : List α) (n : ℤ) : List α :=
  if 0 ≤ n then l.take n.toNat else l.take (l.length - n.natAbs)

/-- Sort then truncate: `filteredItems.sort(...)` followed by
`filteredItems.slice(0, params.topN)`. The route performs no validation of
`topN` beyond `parseInt`, so every integer reaches the slice. -/
def topItemsResult (metric : RankingMetric) (items : List RouteItem) (topN : ℤ) :
    List RouteItem :=
  jsSlice (rankSort metric items) topN

end TopItems

namespace Backfill

/-- One row fetched by the anchor backfill script. -/
structure StatRow where
  id : ℕ
  item_id : ℕ
  world_id : ℕ
  stat_date : ℕ
  robust_avg_price : Option ℚ
  avg_price : Option ℚ
deriving DecidableEq, Repr, Inhabited

/-- `median` of the backfill script: `null` on empty input. -/
def median (values : List ℚ) : Option ℚ :=
  if values = [] then none
  else
    let sorted := MarketData.sortAsc values
    let mid := sorted.length / 2
    if sorted.length % 2 = 0 then some ((sorted.getD (mid - 1) 0 + sorted.getD mid 0) / 2)
    else some (sorted.getD mid 0)

/-- `percentile` of the backfill script: linear interpolation between order
statistics at fractional rank `(n-1)*p`; `null` on empty input. -/
def percentile (values : List ℚ) (p : ℚ) : Option ℚ :=
  if values = [] then none
  else
    let sorted := MarketData.sortAsc values
    let idx : ℚ := ((sorted.length - 1 : ℕ) : ℚ) * p
    let lower : ℕ := ⌊idx⌋.toNat
    let upper : ℕ := ⌈idx⌉.toNat
    if upper = lower then some (sorted.getD lower 0)
    else some (sorted.getD lower 0 + (sorted.getD upper 0 - sorted.getD lower 0) * (idx - (lower : ℚ)))

/-- The representative price of a prior row: `robust_avg_price ?? avg_price`,
kept only when present and positive. -/
def rowPrice (prev : StatRow) : Option ℚ :=
  match prev.robust_avg_price.orElse (fun _ => prev.avg_price) with
  | some price => if 0 < price then some price else none
  | none => none

/-- The 30-day window the backfill collects for the row at index `i` of one
(item, world) group: every earlier row (index `j < i`) within 30 days of the
current row's date, mapped to its representative price. -/
def windowPrices (groupRows : List StatRow) (i : ℕ) : List ℚ :=
  let current := groupRows.getD i default
  ((groupRows.take i).filter fun prev =>
      decide ((current.stat_date : ℤ) - (prev.stat_date : ℤ) ≤ 30)).filterMap rowPrice

/-- The anchors `(typical_price_30d, price_p90_30d)` the backfill computes
for the row at index `i` of one group. -/
def anchorsAt (groupRows : List StatRow) (i : ℕ) : Option ℚ × Option ℚ :=
  let w := windowPrices groupRows i
  (median w, percentile w (9/10))

/-- One group's rows arrive sorted by `stat_date` ascending, with distinct
dates ((item, world, stat_date) is the table's unique key). -/
def StrictByDate (g : List StatRow) : Prop :=
  g.Pairwise fun a b => a.stat_date < b.stat_date

end Backfill

example : MarketData.median [5] = 5 := by
  norm_num [MarketData.median, MarketData.sortAsc, List.insertionSort,
    List.orderedInsert, List.cons_ne_nil]

example : MarketData.median [1, 3] = 2 := by
  norm_num [MarketData.median, MarketData.sortAsc, List.insertionSort,
    List.orderedInsert, List.cons_ne_nil]

example : MarketData.median [1, 2, 3, 4] = 5/2 := by
  norm_num [MarketData.median, MarketData.sortAsc, List.insertionSort,
    List.orderedInsert, List.cons_ne_nil]

example : Backfill.percentile [10, 20, 30, 40] 0 = some 10 := by
  norm_num [Backfill.percentile, MarketData.sortAsc, List.insertionSort,
    List.orderedInsert, List.cons_ne_nil]

example : Backfill.percentile [10, 20, 30, 40] 1 = some 40 := by
  have h3 : Int.toNat 3 = 3 := rfl
  norm_num [Backfill.percentile, MarketData.sortAsc, List.insertionSort,
    List.orderedInsert, List.cons_ne_nil, h3]

example : Backfill.percentile [10, 20, 30, 40] (1/2) = some 25 := by
  have hc : (⌈(3 : ℚ)/2⌉ : ℤ) = 2 := by
    rw [Int.ceil_eq_iff]; norm_num
  have hf : (⌊(3 : ℚ)/2⌋ : ℤ) = 1 := by
    rw [Int.floor_eq_iff]; norm_num
  have h2 : Int.toNat 2 = 2 := rfl
  norm_num [Backfill.percentile, MarketData.sortAsc, List.insertionSort,
    List.orderedInsert, List.cons_ne_nil, hc, hf, h2]

/-- C3: folding three DailyStat rows for one item with units_sold
[10, 0, 20] and revenue [100000, 0, 250000] over the 7-day timeframe yields
30 units, 350000 revenue, avg_price 11667 (rounded) and
sales_velocity 30/7: the velocity divides by the timeframe's day count (7),
not by the number of rows with data. -/
theorem c3_metrics_scenario :
    (Profitability.calculateMetrics
        [⟨10, 100000, none, none, 0⟩, ⟨0, 0, none, none, 0⟩,
          ⟨20, 250000, none, none, 0⟩] .d7 none).unitsSold = 30 ∧
    (Profitability.calculateMetrics
        [⟨10, 100000, none, none, 0⟩, ⟨0, 0, none, none, 0⟩,
          ⟨20, 250000, none, none, 0⟩] .d7 none).totalRevenue = 350000 ∧
    (Profitability.calculateMetrics
        [⟨10, 100000, none, none, 0⟩, ⟨0, 0, none, none, 0⟩,
          ⟨20, 250000, none, none, 0⟩] .d7 none).avgPrice = 11667 ∧
    (Profitability.calculateMetrics
        [⟨10, 100000, none, none, 0⟩, ⟨0, 0, none, none, 0⟩,
          ⟨20, 250000, none, none, 0⟩] .d7 none).salesVelocity = 30/7 := by
  refine ⟨?_, ?_, ?_, ?_⟩ <;>
    norm_num [Profitability.calculateMetrics, Profitability.timeframeDays,
      MarketData.jsRound, Int.floor_eq_iff]

/-- C6: under the bestToSell ranking strategy, the staged filter guarantees
a non-empty result whenever the input contains at least one item with
units_sold > 0 and total_revenue > 0 (stage 3 keeps such an item, and each
earlier stage is only used when non-empty). -/
theorem c6_bestToSell_fallback (items : List TopItems.RouteItem)
    (h : ∃ i ∈ items, 0 < i.unitsSold ∧ 0 < i.totalRevenue) :
    TopItems.bestToSellFilter items ≠ [] := by
  obtain ⟨i, hmem, hu, hr⟩ := h
  simp only [TopItems.bestToSellFilter]
  split
  · split
    · split
      · exact List.ne_nil_of_mem hmem
      · rename_i h3
        simpa [List.isEmpty_iff] using h3
    · rename_i h2
      simpa [List.isEmpty_iff] using h2
  · rename_i h1
    simpa [List.isEmpty_iff] using h1

/-- Witness for C6 at a concrete input: a single item with sales and revenue
but velocity 0.1 (below every stage's floor) still yields a non-empty
result. -/
theorem c6_bestToSell_fallback_witness :
    TopItems.bestToSellFilter [⟨1, 3, 1/10, 5000, 100, none, none, 2⟩] ≠ [] :=
  c6_bestToSell_fallback _
    ⟨⟨1, 3, 1/10, 5000, 100, none, none, 2⟩, by simp, by norm_num, by norm_num⟩

/-- C7 counterexample: in the route's ranking a null profit_per_unit scores
`?? 0`, not a minimum sentinel, so under the 'profit' strategy the ranked
output places a null-profit item ABOVE an item whose (non-null) profit is
negative — the claim's ordering property fails. -/
theorem c7_counterexample :
    TopItems.rankSort .profit
        [⟨1, 5, 1, 1000, 100, some (-50), some (-50), 2⟩,
          ⟨2, 5, 1, 1000, 100, none, none, 2⟩]
      = [⟨2, 5, 1, 1000, 100, none, none, 2⟩,
          ⟨1, 5, 1, 1000, 100, some (-50), some (-50), 2⟩] ∧
    (⟨2, 5, 1, 1000, 100, none, none, 2⟩ : TopItems.RouteItem).profitPerUnit = none ∧
    (⟨1, 5, 1, 1000, 100, some (-50), some (-50), 2⟩ :
        TopItems.RouteItem).profitPerUnit ≠ none := by
  refine ⟨?_, rfl, by simp⟩
  norm_num [TopItems.rankSort, TopItems.getRankingValue, List.insertionSort,
    List.orderedInsert]

/-- C7 amended: the sentinel for a null profit_per_unit (and null
margin_percent under 'roi') is 0, so a null-profit item scores strictly
below every item with positive profit (and likewise for roi/margin) — but
not below items with negative profit. -/
theorem c7_amended (a b : TopItems.RouteItem) (v w : ℚ)
    (hap : a.profitPerUnit = none) (ham : a.marginPercent = none)
    (hbp : b.profitPerUnit = some v) (hbm : b.marginPercent = some w)
    (hv : 0 < v) (hw : 0 < w) :
    TopItems.getRankingValue .profit a < TopItems.getRankingValue .profit b ∧
    TopItems.getRankingValue .roi a < TopItems.getRankingValue .roi b := by
  constructor
  · simpa [TopItems.getRankingValue, hap, hbp] using hv
  · simpa [TopItems.getRankingValue, ham, hbm] using hw

/-- Witness for C7 amended at concrete items. -/
theorem c7_amended_witness :
    TopItems.getRankingValue .profit (⟨1, 5, 1, 1000, 100, none, none, 2⟩ : TopItems.RouteItem) <
      TopItems.getRankingValue .profit (⟨2, 5, 1, 1000, 100, some 40, some 4, 2⟩ : TopItems.RouteItem) ∧
    TopItems.getRankingValue .roi (⟨1, 5, 1, 1000, 100, none, none, 2⟩ : TopItems.RouteItem) <
      TopItems.getRankingValue .roi (⟨2, 5, 1, 1000, 100, some 40, some 4, 2⟩ : TopItems.RouteItem) :=
  c7_amended _ _ 40 4 rfl rfl rfl rfl (by norm_num) (by norm_num)

/-- C8 counterexample: the route does not treat topN = 0 as an error — the
slice silently produces an empty list. -/
theorem c8_counterexample :
    TopItems.topItemsResult .revenue [⟨1, 5, 1, 1000, 100, none, none, 2⟩] 0 = [] := by
  simp [TopItems.topItemsResult, TopItems.jsSlice]

/-- C8 amended: for every N ≥ 1 the route returns the first N items of the
sorted list (hence at most N items); but N ≤ 0 is NOT treated as an error:
N = 0 silently yields an empty list and a negative N drops the last |N|
items (JavaScript slice semantics). -/
theorem c8_amended (metric : TopItems.RankingMetric)
    (items : List TopItems.RouteItem) (n : ℤ) :
    (1 ≤ n →
      TopItems.topItemsResult metric items n
          = (TopItems.rankSort metric items).take n.toNat ∧
        (TopItems.topItemsResult metric items n).length ≤ n.toNat) ∧
    TopItems.topItemsResult metric items 0 = [] ∧
    (n < 0 →
      TopItems.topItemsResult metric items n
        = (TopItems.rankSort metric items).take
            ((TopItems.rankSort metric items).length - n.natAbs)) := by
  refine ⟨fun hn => ⟨?_, ?_⟩, ?_, fun hn => ?_⟩
  · simp [TopItems.topItemsResult, TopItems.jsSlice, le_trans zero_le_one hn]
  · simp only [TopItems.topItemsResult, TopItems.jsSlice,
      if_pos (le_trans zero_le_one hn)]
    exact List.length_take_le _ _
  · simp [TopItems.topItemsResult, TopItems.jsSlice]
  · simp [TopItems.topItemsResult, TopItems.jsSlice, not_le.mpr hn]

/-- Witness for C8 amended at a concrete input with N = 1. -/
theorem c8_amended_witness :
    TopItems.topItemsResult .revenue [⟨1, 5, 1, 1000, 100, none, none, 2⟩] 1
        = (TopItems.rankSort .revenue [⟨1, 5, 1, 1000, 100, none, none, 2⟩]).take
            (Int.toNat 1) ∧
      (TopItems.topItemsResult .revenue [⟨1, 5, 1, 1000, 100, none, none, 2⟩] 1).length ≤
        Int.toNat 1 :=
  (c8_amended .revenue [⟨1, 5, 1, 1000, 100, none, none, 2⟩] 1).1 (by norm_num)

/-- The `latestActiveListings` fold keeps the last positive count seen,
falling back to its initial value. -/
theorem TopItems.foldl_latestActiveListings (l : List TopItems.StatRecord) (init : ℕ) :
    l.foldl (fun acc s => if 0 < s.active_listings then s.active_listings else acc) init
      = (TopItems.lastPositiveListings l).getD init := by
  induction l generalizing init with
  | nil => simp [TopItems.lastPositiveListings]
  | cons a l ih =>
    by_cases ha : 0 < a.active_listings
    · simp only [List.foldl_cons, if_pos ha, ih, TopItems.lastPositiveListings,
        List.filter_cons, ha, decide_True, if_pos, List.getLast?_cons]
      cases hl : (l.filter fun s => decide (0 < s.active_listings)).getLast? with
      | none => simp [hl]
      | some x => simp [hl]
    · simp only [List.foldl_cons, if_neg ha, ih, TopItems.lastPositiveListings,
        List.filter_cons]
      simp [ha]

/-- C4 counterexample: with two rows for one item — row at date 1 with
revenue 100 and 5 listings, row at date 2 with revenue 200 and 7 listings —
the route iterates in revenue-descending order and ends on the OLDER row, so
the aggregate reports 5, while the most recent row (by date) with positive
listings has 7. -/
theorem c4_counterexample :
    TopItems.aggActiveListings [⟨1, 1, 10, 100, 5⟩, ⟨1, 2, 10, 200, 7⟩] = 5 ∧
    TopItems.claimActiveListings [⟨1, 1, 10, 100, 5⟩, ⟨1, 2, 10, 200, 7⟩] = some 7 := by
  constructor
  · norm_num [TopItems.aggActiveListings, TopItems.queryOrder,
      List.insertionSort, List.orderedInsert]
  · norm_num [TopItems.claimActiveListings, List.insertionSort,
      List.orderedInsert, List.getLast?]

/-- C4 amended: the aggregated active_listings is the count of the LAST row,
in the route's processed order (the query's total_revenue-descending order),
whose active_listings > 0, falling back to the first processed row's count
when no row has a positive count; it is a single row's value, never a sum
across rows. -/
theorem c4_amended (rows : List TopItems.StatRecord) (first : TopItems.StatRecord)
    (rest : List TopItems.StatRecord)
    (h : TopItems.queryOrder rows = first :: rest) :
    TopItems.aggActiveListings rows
      = (TopItems.lastPositiveListings (first :: rest)).getD first.active_listings := by
  simp only [TopItems.aggActiveListings, h]
  exact TopItems.foldl_latestActiveListings (first :: rest) first.active_listings

/-- Witness for C4 amended at the concrete two-row input. -/
theorem c4_amended_witness :
    TopItems.aggActiveListings [⟨1, 1, 10, 100, 5⟩, ⟨1, 2, 10, 200, 7⟩]
      = (TopItems.lastPositiveListings
          [⟨1, 2, 10, 200, 7⟩, ⟨1, 1, 10, 100, 5⟩]).getD
          (⟨1, 2, 10, 200, 7⟩ : TopItems.StatRecord).active_listings :=
  c4_amended _ _ _ (by norm_num [TopItems.queryOrder, List.insertionSort,
    List.orderedInsert])

/-- C1 counterexample: a day with three moderate sales (price 100,
quantity 1 each) has only 3 non-outlier sales — below the threshold of 5 —
yet the produced row has robust_total_revenue = 300, robust_units_sold = 3
and robust_avg_price = 100, none of them null/zero; only is_low_confidence
is set. -/
theorem c1_counterexample :
    (MarketData.dailyStats [⟨100, 1⟩, ⟨100, 1⟩, ⟨100, 1⟩] []).robust_sample_size = 3 ∧
    (MarketData.dailyStats [⟨100, 1⟩, ⟨100, 1⟩, ⟨100, 1⟩] []).robust_units_sold = 3 ∧
    (MarketData.dailyStats [⟨100, 1⟩, ⟨100, 1⟩, ⟨100, 1⟩] []).robust_total_revenue = 300 ∧
    (MarketData.dailyStats [⟨100, 1⟩, ⟨100, 1⟩, ⟨100, 1⟩] []).robust_avg_price = some 100 ∧
    (MarketData.dailyStats [⟨100, 1⟩, ⟨100, 1⟩, ⟨100, 1⟩] []).is_low_confidence = true := by
  refine ⟨?_, ?_, ?_, ?_, ?_⟩ <;>
    norm_num [MarketData.dailyStats, MarketData.clampedSales, MarketData.filteredSales,
      MarketData.dayCtx, MarketData.rejectAnchor, MarketData.rejectStat,
      MarketData.rejectCheapSingle, MarketData.statUpper, MarketData.median,
      MarketData.quartiles, MarketData.mad, MarketData.sortAsc, MarketData.jsRound,
      List.insertionSort, List.orderedInsert, List.cons_ne_nil, Int.floor_eq_iff]

/-- C1 amended: the robust fields of the produced row are computed over the
surviving sales regardless of their number; what the sub-threshold case
actually controls is the confidence flag — is_low_confidence holds exactly
when robust_sample_size < 5 — while robust_avg_price is null exactly when
zero sales survive the filter. -/
theorem c1_amended (recentHistory : List MarketData.HistoryEntry)
    (listings : List MarketData.Listing) :
    ((MarketData.dailyStats recentHistory listings).is_low_confidence = true ↔
      (MarketData.dailyStats recentHistory listings).robust_sample_size < 5) ∧
    ((MarketData.dailyStats recentHistory listings).robust_avg_price = none ↔
      (MarketData.dailyStats recentHistory listings).robust_sample_size = 0) := by
  refine ⟨by simp [MarketData.dailyStats], ?_⟩
  by_cases hc : 0 < (MarketData.clampedSales recentHistory).length
  · simp only [MarketData.dailyStats, List.length_map, if_pos hc]
    simp [Nat.pos_iff_ne_zero.mp hc]
  · simp only [MarketData.dailyStats, List.length_map, if_neg hc]
    simp [Nat.eq_zero_of_not_pos hc]

/-- Witness for C1 amended at a concrete day (empty history). -/
theorem c1_amended_witness :
    ((MarketData.dailyStats [] []).is_low_confidence = true ↔
      (MarketData.dailyStats [] []).robust_sample_size < 5) ∧
    ((MarketData.dailyStats [] []).robust_avg_price = none ↔
      (MarketData.dailyStats [] []).robust_sample_size = 0) :=
  c1_amended [] []

/-- A filter whose predicate rejects on the first of three rules that fires
equals the three single-rule filters applied in sequence. -/
theorem MarketData.filter_reject_chain {α : Type} (l : List α) (a b c : α → Bool) :
    (l.filter fun x =>
        if a x then false else if b x then false else if c x then false else true)
      = ((l.filter fun x => !a x).filter fun x => !b x).filter fun x => !c x := by
  rw [List.filter_filter, List.filter_filter]
  apply List.filter_congr
  intro x _
  cases a x <;> cases b x <;> cases c x <;> rfl

/-- C2 amended: the single-pass filter of `upsertDailyStats` does apply its
three rejection rules as successive stages on the survivors of the previous
stage, but the statistical stage's gate is the RAW day count (≥ 5 sales
before any filtering) and its Q1/Q3/IQR/MAD/median are computed over the
FULL day sample, not over the stage-1 survivors. -/
theorem c2_amended (recentHistory : List MarketData.HistoryEntry) :
    MarketData.filteredSales recentHistory
      = MarketData.stagedFilteredSales recentHistory := by
  simp only [MarketData.filteredSales, MarketData.stagedFilteredSales]
  rw [MarketData.filter_reject_chain]
  congr 1
  cases hE : (MarketData.dayCtx recentHistory).hasEnoughSales
  · simp [MarketData.rejectStat, hE]
  · simp [MarketData.rejectStat, hE]

/-- C2 counterexample: on the day
[100, 100, 100, 100, 100, 150, 10000] (quantity 1 each) the sale at 150
survives the code's filter — the statistics computed over the FULL sample
(q3 = 150, iqr = 50) give a ceiling of 300 — while the claim's stage 2,
computed over the stage-1 survivors [100 ×5, 150] (q3 = 100, iqr = 0,
mad = 0), has ceiling 100 and rejects it. -/
theorem c2_counterexample :
    (⟨150, 1⟩ : MarketData.HistoryEntry) ∈
        MarketData.filteredSales
          [⟨100, 1⟩, ⟨100, 1⟩, ⟨100, 1⟩, ⟨100, 1⟩, ⟨100, 1⟩, ⟨150, 1⟩, ⟨10000, 1⟩] ∧
    (⟨150, 1⟩ : MarketData.HistoryEntry) ∉
        MarketData.claimStage2
          [⟨100, 1⟩, ⟨100, 1⟩, ⟨100, 1⟩, ⟨100, 1⟩, ⟨100, 1⟩, ⟨150, 1⟩, ⟨10000, 1⟩] := by
  have hf : MarketData.filteredSales
      [⟨100, 1⟩, ⟨100, 1⟩, ⟨100, 1⟩, ⟨100, 1⟩, ⟨100, 1⟩, ⟨150, 1⟩, ⟨10000, 1⟩]
      = [⟨100, 1⟩, ⟨100, 1⟩, ⟨100, 1⟩, ⟨100, 1⟩, ⟨100, 1⟩, ⟨150, 1⟩] := by
    norm_num [MarketData.filteredSales, MarketData.dayCtx, MarketData.rejectAnchor,
      MarketData.rejectStat, MarketData.rejectCheapSingle, MarketData.statUpper,
      MarketData.median, MarketData.quartiles, MarketData.mad, MarketData.sortAsc,
      List.insertionSort, List.orderedInsert, List.cons_ne_nil, List.filter]
  have h1 : MarketData.claimStage1
      [⟨100, 1⟩, ⟨100, 1⟩, ⟨100, 1⟩, ⟨100, 1⟩, ⟨100, 1⟩, ⟨150, 1⟩, ⟨10000, 1⟩]
      = [⟨100, 1⟩, ⟨100, 1⟩, ⟨100, 1⟩, ⟨100, 1⟩, ⟨100, 1⟩, ⟨150, 1⟩] := by
    norm_num [MarketData.claimStage1, MarketData.median, MarketData.sortAsc,
      List.insertionSort, List.orderedInsert, List.cons_ne_nil, List.filter]
  have h2 : MarketData.claimStage2
      [⟨100, 1⟩, ⟨100, 1⟩, ⟨100, 1⟩, ⟨100, 1⟩, ⟨100, 1⟩, ⟨150, 1⟩, ⟨10000, 1⟩]
      = [⟨100, 1⟩, ⟨100, 1⟩, ⟨100, 1⟩, ⟨100, 1⟩, ⟨100, 1⟩] := by
    rw [MarketData.claimStage2, h1]
    norm_num [MarketData.median, MarketData.quartiles, MarketData.mad,
      MarketData.sortAsc, List.insertionSort, List.orderedInsert, List.cons_ne_nil,
      List.filter]
  rw [hf, h2]
  norm_num

/-- The median of a non-empty list of positive rationals is positive. -/
theorem MarketData.median_pos (l : List ℚ) (hne : l ≠ [])
    (hpos : ∀ x ∈ l, 0 < x) : 0 < MarketData.median l := by
  have hperm := List.perm_insertionSort (fun a b : ℚ => a ≤ b) l
  have hmem : ∀ x ∈ MarketData.sortAsc l, 0 < x := by
    intro x hx
    exact hpos x (hperm.mem_iff.mp hx)
  have hlen : (MarketData.sortAsc l).length = l.length :=
    List.length_insertionSort _ l
  have h0 : 0 < (MarketData.sortAsc l).length := by
    rw [hlen]
    exact List.length_pos.mpr hne
  have hget : ∀ i : ℕ, i < (MarketData.sortAsc l).length →
      0 < (MarketData.sortAsc l).getD i 0 := by
    intro i hi
    rw [List.getD_eq_getElem _ _ hi]
    exact hmem _ (List.getElem_mem hi)
  have hmidlt : (MarketData.sortAsc l).length / 2 < (MarketData.sortAsc l).length :=
    Nat.div_lt_self h0 (by norm_num)
  simp only [MarketData.median, if_neg hne]
  split
  · have h1 := hget _ hmidlt
    have h2 := hget ((MarketData.sortAsc l).length / 2 - 1)
      (lt_of_le_of_lt (Nat.sub_le _ _) hmidlt)
    linarith
  · exact hget _ hmidlt

/-- C5: every sale surviving the outlier filter has its effective (clamped)
price, as used in the robust revenue and average, bounded by
(anchor ?? day-median) × 10; with positive sale prices the clamp cap is
always finite. -/
theorem c5_clamp_bound (recentHistory : List MarketData.HistoryEntry)
    (hpos : ∀ e ∈ recentHistory, 0 < e.pricePerUnit) :
    ∀ s ∈ MarketData.clampedSales recentHistory,
      s.pricePerUnit ≤
        ((MarketData.dayCtx recentHistory).anchor.getD
          (MarketData.dayCtx recentHistory).priceMedian) * 10 := by
  intro s hs
  by_cases hne : recentHistory = []
  · subst hne
    simp [MarketData.clampedSales, MarketData.filteredSales] at hs
  · have hmpos : 0 < MarketData.median (recentHistory.map (·.pricePerUnit)) := by
      apply MarketData.median_pos
      · simp [hne]
      · intro x hx
        obtain ⟨e, he, rfl⟩ := List.mem_map.mp hx
        exact hpos e he
    have hanchor : (MarketData.dayCtx recentHistory).anchor
        = some (MarketData.median (recentHistory.map (·.pricePerUnit))) := by
      simp [MarketData.dayCtx, hmpos]
    have hbase : (MarketData.dayCtx recentHistory).anchor.getD
        (MarketData.dayCtx recentHistory).priceMedian
        = MarketData.median (recentHistory.map (·.pricePerUnit)) := by
      rw [hanchor]
      rfl
    rw [hbase]
    simp only [MarketData.clampedSales, hbase, if_pos hmpos] at hs
    obtain ⟨t, ht, rfl⟩ := List.mem_map.mp hs
    simp

/-- Witness for C5 at a concrete day. -/
theorem c5_clamp_bound_witness :
    (⟨(100 : ℚ), 1⟩ : MarketData.HistoryEntry).pricePerUnit ≤
      ((MarketData.dayCtx [⟨100, 1⟩, ⟨100, 1⟩, ⟨5000, 2⟩]).anchor.getD
        (MarketData.dayCtx [⟨100, 1⟩, ⟨100, 1⟩, ⟨5000, 2⟩]).priceMedian) * 10 :=
  c5_clamp_bound [⟨100, 1⟩, ⟨100, 1⟩, ⟨5000, 2⟩]
    (by
      intro e he
      simp [List.mem_cons] at he
      rcases he with rfl | rfl | rfl <;> norm_num)
    ⟨100, 1⟩
    (by
      norm_num [MarketData.clampedSales, MarketData.filteredSales, MarketData.dayCtx,
        MarketData.rejectAnchor, MarketData.rejectStat, MarketData.rejectCheapSingle,
        MarketData.statUpper, MarketData.median, MarketData.quartiles, MarketData.mad,
        MarketData.sortAsc, List.insertionSort, List.orderedInsert, List.cons_ne_nil,
        List.filter])

/-- The median of a one-element list is its element. -/
theorem MarketData.median_singleton (a : ℚ) : MarketData.median [a] = a := by
  simp [MarketData.median, MarketData.sortAsc, List.insertionSort, List.orderedInsert]

/-- The quartiles of a one-element list both come from empty halves, hence
are the empty-median sentinel 0. -/
theorem MarketData.quartiles_singleton (a : ℚ) : MarketData.quartiles [a] = (0, 0) := by
  simp [MarketData.quartiles, MarketData.median, MarketData.sortAsc,
    List.insertionSort, List.orderedInsert]

/-- The MAD of a one-element list around its own value is 0. -/
theorem MarketData.mad_self_singleton (a : ℚ) : MarketData.mad [a] a = 0 := by
  simp [MarketData.mad, MarketData.median, MarketData.sortAsc,
    List.insertionSort, List.orderedInsert]

/-- C10: a day consisting of exactly one sale with quantity 1 and a positive
unit price below 1000 records the sale in the raw figures, but the
single-unit guard rejects it (Q3 of a one-element sample is 0, so any
positive price exceeds Q3 × 20), leaving robust_sample_size 0, robust sums
0, a null robust_avg_price and is_low_confidence set. -/
theorem c10_single_unit_guard (p : ℚ) (hp : 0 < p) (hp1000 : p < 1000) :
    (MarketData.dailyStats [⟨p, 1⟩] []).units_sold = 1 ∧
    (MarketData.dailyStats [⟨p, 1⟩] []).total_revenue = p ∧
    (MarketData.dailyStats [⟨p, 1⟩] []).robust_sample_size = 0 ∧
    (MarketData.dailyStats [⟨p, 1⟩] []).robust_units_sold = 0 ∧
    (MarketData.dailyStats [⟨p, 1⟩] []).robust_total_revenue = 0 ∧
    (MarketData.dailyStats [⟨p, 1⟩] []).robust_avg_price = none ∧
    (MarketData.dailyStats [⟨p, 1⟩] []).is_low_confidence = true := by
  have hctx : MarketData.dayCtx [⟨p, 1⟩]
      = ⟨p, 0, 0, 0, 0, false, some p, some (p * 20)⟩ := by
    simp [MarketData.dayCtx, MarketData.median_singleton,
      MarketData.quartiles_singleton, MarketData.mad_self_singleton, hp]
  have hnot20 : ¬ (p * 20 < p) := by linarith
  have h020 : (0 : ℚ) * 20 < p := by linarith
  have hfil : MarketData.filteredSales [⟨p, 1⟩] = [] := by
    simp [MarketData.filteredSales, hctx, MarketData.rejectAnchor,
      MarketData.rejectStat, MarketData.rejectCheapSingle, MarketData.statUpper,
      List.filter, hnot20, hp1000, h020, hp]
  have hclamp : MarketData.clampedSales [⟨p, 1⟩] = [] := by
    simp [MarketData.clampedSales, hfil]
  refine ⟨?_, ?_, ?_, ?_, ?_, ?_, ?_⟩ <;>
    simp [MarketData.dailyStats, hclamp]

/-- Witness for C10 at price 500. -/
theorem c10_single_unit_guard_witness :
    (MarketData.dailyStats [⟨500, 1⟩] []).units_sold = 1 ∧
    (MarketData.dailyStats [⟨500, 1⟩] []).total_revenue = 500 ∧
    (MarketData.dailyStats [⟨500, 1⟩] []).robust_sample_size = 0 ∧
    (MarketData.dailyStats [⟨500, 1⟩] []).robust_units_sold = 0 ∧
    (MarketData.dailyStats [⟨500, 1⟩] []).robust_total_revenue = 0 ∧
    (MarketData.dailyStats [⟨500, 1⟩] []).robust_avg_price = none ∧
    (MarketData.dailyStats [⟨500, 1⟩] []).is_low_confidence = true :=
  c10_single_unit_guard 500 (by norm_num) (by norm_num)

/-- A filter whose predicate holds on exactly the first `i` positions of a
list returns the `i`-element prefix. -/
theorem Backfill.filter_eq_take {α : Type} (l : List α) (p : α → Bool) (i : ℕ)
    (hi : i ≤ l.length)
    (h1 : ∀ j, (hj : j < i) → p (l.get ⟨j, lt_of_lt_of_le hj hi⟩) = true)
    (h2 : ∀ j, (hj : j < l.length) → i ≤ j → p (l.get ⟨j, hj⟩) = false) :
    l.filter p = l.take i := by
  induction l generalizing i with
  | nil => simp
  | cons a l ih =>
    cases i with
    | zero =>
      simp only [List.take_zero]
      rw [List.filter_eq_nil_iff]
      intro x hx
      obtain ⟨⟨j, hj⟩, rfl⟩ := List.mem_iff_get.mp hx
      intro hcon
      rw [h2 j hj (Nat.zero_le _)] at hcon
      cases hcon
    | succ i =>
      have hpa : p a = true := h1 0 (Nat.succ_pos _)
      simp only [List.filter_cons, hpa, if_pos, List.take_succ_cons]
      congr 1
      refine ih i (Nat.le_of_succ_le_succ hi) ?_ ?_
      · intro j hj
        exact h1 (j + 1) (Nat.succ_lt_succ hj)
      · intro j hj hij
        exact h2 (j + 1) (Nat.succ_lt_succ hj) (Nat.succ_le_succ hij)

/-- In a strictly date-ascending group, the rows dated strictly before the
row at index `i` are exactly the prefix of length `i`. -/
theorem Backfill.filter_lt_date_eq_take (g : List Backfill.StatRow)
    (hg : Backfill.StrictByDate g) (i : ℕ) (hi : i < g.length) :
    (g.filter fun r => decide (r.stat_date < (g.get ⟨i, hi⟩).stat_date))
      = g.take i := by
  apply Backfill.filter_eq_take g _ i (le_of_lt hi)
  · intro j hj
    have := List.pairwise_iff_get.mp hg ⟨j, lt_trans hj hi⟩ ⟨i, hi⟩ hj
    simpa using this
  · intro j hj hij
    have hle : (g.get ⟨i, hi⟩).stat_date ≤ (g.get ⟨j, hj⟩).stat_date := by
      rcases Nat.eq_or_lt_of_le hij with heq | hlt
      · cases heq
        exact le_refl _
      · exact le_of_lt (List.pairwise_iff_get.mp hg ⟨i, hi⟩ ⟨j, hj⟩ hlt)
    simp only [List.get_eq_getElem] at hle
    simp [not_lt.mpr hle]

/-- The 30-day window of the row at index `i` of a strictly date-ascending
group consists exactly of the representative prices of the rows dated
strictly before that row's date and at most 30 days earlier. -/
theorem Backfill.windowPrices_eq (g : List Backfill.StatRow)
    (hg : Backfill.StrictByDate g) (i : ℕ) (hi : i < g.length) :
    Backfill.windowPrices g i
      = (g.filter fun r =>
            decide (r.stat_date < (g.get ⟨i, hi⟩).stat_date) &&
              decide (((g.get ⟨i, hi⟩).stat_date : ℤ) - (r.stat_date : ℤ) ≤ 30)).filterMap
          Backfill.rowPrice := by
  simp only [Backfill.windowPrices]
  rw [List.getD_eq_getElem _ _ hi, ← Backfill.filter_lt_date_eq_take g hg i hi,
    List.filter_filter]
  congr 1
  apply List.filter_congr
  intro x _
  exact Bool.and_comm _ _

/-- C9: anchor causality (noninterference): for strictly date-ascending
histories, the anchors (typical_price_30d, price_p90_30d) computed for the
row dated D depend only on the rows dated strictly before D and within the
trailing 30 days — two histories containing a row dated D that agree on
those rows produce identical anchors for D. -/
theorem c9_anchor_causality (g₁ g₂ : List Backfill.StatRow) (i₁ i₂ : ℕ)
    (h₁ : i₁ < g₁.length) (h₂ : i₂ < g₂.length)
    (hs₁ : Backfill.StrictByDate g₁) (hs₂ : Backfill.StrictByDate g₂)
    (hagree :
      (g₁.filter fun r =>
          decide (r.stat_date < (g₁.get ⟨i₁, h₁⟩).stat_date) &&
            decide (((g₁.get ⟨i₁, h₁⟩).stat_date : ℤ) - (r.stat_date : ℤ) ≤ 30))
        = (g₂.filter fun r =>
            decide (r.stat_date < (g₂.get ⟨i₂, h₂⟩).stat_date) &&
              decide (((g₂.get ⟨i₂, h₂⟩).stat_date : ℤ) - (r.stat_date : ℤ) ≤ 30))) :
    Backfill.anchorsAt g₁ i₁ = Backfill.anchorsAt g₂ i₂ := by
  unfold Backfill.anchorsAt
  rw [Backfill.windowPrices_eq g₁ hs₁ i₁ h₁, Backfill.windowPrices_eq g₂ hs₂ i₂ h₂,
    hagree]

/-- Witness for C9: two concrete histories that agree before day 12 but
differ on a later day (17 vs. a different later row) produce identical
anchors for the row dated 12. -/
theorem c9_anchor_causality_witness :
    Backfill.anchorsAt
        [⟨1, 7, 1, 10, some 100, none⟩, ⟨2, 7, 1, 12, some 120, none⟩,
          ⟨3, 7, 1, 17, some 300, none⟩] 1
      = Backfill.anchorsAt
        [⟨1, 7, 1, 10, some 100, none⟩, ⟨2, 7, 1, 12, some 120, none⟩,
          ⟨4, 7, 1, 17, some 999, some 5⟩] 1 :=
  c9_anchor_causality _ _ 1 1 (by norm_num) (by norm_num)
    (by
      simp only [Backfill.StrictByDate]
      decide)
    (by
      simp only [Backfill.StrictByDate]
      decide)
    (by decide)
